import Mathlib

/-!
Verification of the Mastermind game core (`mastermind.ino` and the test
harness `test/src/ProductionCode.c`) against its specification.

The embedding models the game's global data (`gameData`, the digit pool),
the secret generator (`shuffleSort`, `randomNumber`, `generateSecret`),
the guess evaluator (`checkInput`, `isSecretSolved`) and the event loop
(`step`, mirroring `loop()`), with the entropy source (`random(n)`)
represented by a stream `g : Nat -> Nat`, the k-th call with bound `n`
yielding `g k % n` (a value in `[0, n)`).
-/

/-- SECRET_LENGTH from mastermind.ino: length of the secret combination. -/
def SECRET_LENGTH : Nat := 4

/-- TRIES_MAX from mastermind.ino: maximum number of tries before the player loses. -/
def TRIES_MAX : Nat := 12

/-- DIGIT_COUNT from mastermind.ino: size of the digit alphabet. -/
def DIGIT_COUNT : Nat := 10

/-- HINT_WRONG character. -/
def HINT_WRONG : Char := '-'

/-- HINT_MISPLACED character. -/
def HINT_MISPLACED : Char := '?'

/-- HINT_CORRECT character. -/
def HINT_CORRECT : Char := '!'

/-- BUTTON_NEWROUND character. -/
def BUTTON_NEWROUND : Char := '*'

/-- BUTTON_NEWGAME character. -/
def BUTTON_NEWGAME : Char := '#'

/-- Initial contents of the global `randomDigitPool` array. -/
def randomDigitPool : List Char :=
  ['0', '1', '2', '3', '4', '5', '6', '7', '8', '9']

/-- The `gamestate` enum from mastermind.ino. -/
inductive gamestate where
  | GS_INPUT
  | GS_ROUNDOVER
  | GS_GAMEOVER
  deriving DecidableEq, Repr

open gamestate

/-- The outcome message emitted when a completed guess is evaluated:
MESSAGE_WIN, MESSAGE_LOSE or MESSAGE_NEXTTRY on the LCD. -/
inductive Outcome where
  | win
  | lose
  | nextTry
  deriving DecidableEq, Repr

/-- The global `gameData` struct, extended with the global `randomDigitPool`
array (which `generateSecret` shuffles in place). -/
structure GameData where
  state : gamestate
  secret : List Char
  input : List Char
  hints : List Char
  inputCount : Nat
  tries : Nat
  pool : List Char
  deriving DecidableEq, Repr

/-- Zero-initialized globals, as at C program start (before `setup` runs). -/
def initialData : GameData :=
  { state := GS_INPUT
    secret := List.replicate SECRET_LENGTH (Char.ofNat 0)
    input := List.replicate SECRET_LENGTH (Char.ofNat 0)
    hints := List.replicate SECRET_LENGTH (Char.ofNat 0)
    inputCount := 0
    tries := 0
    pool := randomDigitPool }

/-- The three-statement swap `tmp = arr[i]; arr[i] = arr[z]; arr[z] = tmp`
from `shuffleSort`, on a list. -/
def listSwap (l : List Char) (i z : Nat) : List Char :=
  (l.set i (l.getD z ' ')).set z (l.getD i ' ')

/-- randomNumber from mastermind.ino: `n > 0 ? random(n) : 0`, the Arduino
`random(n)` call (a value in `[0, n)`) modeled as `g k % n` where `k` is the
call position in the entropy stream. -/
def randomNumber (g : Nat → Nat) (k n : Nat) : Nat :=
  if 0 < n then g k % n else 0

/-- One iteration of the `shuffleSort` loop body at index `i`:
`z = randomNumber(i) + 1; swap arr[i], arr[z]`.  The draw at iteration `i`
uses stream position `i`. -/
def shuffleStep (g : Nat → Nat) (i : Nat) (arr : List Char) : List Char :=
  listSwap arr i (randomNumber g i i + 1)

/-- The `for(i = n; i-- > 0;)` loop of `shuffleSort`: iterations run with
`i = m-1, m-2, ..., 1, 0`. -/
def shuffleAux (g : Nat → Nat) (arr : List Char) : Nat → List Char
  | 0 => arr
  | m + 1 => shuffleAux g (shuffleStep g m arr) m

/-- shuffleSort from mastermind.ino. -/
def shuffleSort (g : Nat → Nat) (arr : List Char) (n : Nat) : List Char :=
  shuffleAux g arr n

/-- Modelled from the claim C2's words (refinement comparison only): a
shuffle whose loop iterates `i` from `n-1` down to `1`, i.e. stops before
the iteration `i = 0`; each step draws `z` in `[1, i]` exactly as the code
does. -/
def shuffleSortSpecC2 (g : Nat → Nat) (arr : List Char) : Nat → List Char
  | 0 => arr
  | 1 => arr
  | m + 2 => shuffleSortSpecC2 g (shuffleStep g (m + 1) arr) (m + 1)

/-- The test harness's `random` from test/src/ProductionCode.c:
`(size_t)rand() % n`, with no guard for `n = 0`; the modulo-by-zero case is
made explicit as `none`. -/
def randomC (g : Nat → Nat) (k n : Nat) : Option Nat :=
  if n = 0 then none else some (g k % n)

/-- shuffleSort from test/src/ProductionCode.c: same loop as the .ino
version but calling the unguarded `random`; `none` marks the
modulo-by-zero. -/
def shuffleSortC (g : Nat → Nat) (arr : List Char) : Nat → Option (List Char)
  | 0 => some arr
  | m + 1 =>
    match randomC g m m with
    | none => none
    | some r => shuffleSortC g (listSwap arr m (r + 1)) m

/-- generateSecret from mastermind.ino, acting on the digit pool; returns
the generated secret together with the (possibly shuffled) pool. -/
def generateSecret (g : Nat → Nat) (allowDuplicates : Bool) (pool : List Char) :
    List Char × List Char :=
  if allowDuplicates then
    ((List.range SECRET_LENGTH).map fun i => Char.ofNat ('0'.toNat + g i % DIGIT_COUNT), pool)
  else
    ((shuffleSort g pool DIGIT_COUNT).take SECRET_LENGTH, shuffleSort g pool DIGIT_COUNT)

/-- The inner `j` loop of checkInput for one guess position `i`: scan the
remaining secret entries (current index `j`), updating the hint `h` for
position `i`; an exact positional match sets HINT_CORRECT and breaks. -/
def innerScan (c : Char) (i : Nat) : List Char → Nat → Char → Char
  | [], _, h => h
  | sj :: rest, j, h =>
    if c = sj then
      if i = j then HINT_CORRECT
      else innerScan c i rest (j + 1) HINT_MISPLACED
    else innerScan c i rest (j + 1) h

/-- checkInput from mastermind.ino: hints start at HINT_WRONG (memset) and
each position `i < n` is settled by the inner scan of the secret. -/
def checkInput (input secret : List Char) (n : Nat) : List Char :=
  (List.range n).map fun i => innerScan (input.getD i ' ') i secret 0 HINT_WRONG

/-- isSecretSolved from mastermind.ino (named `isSolved` in one variant):
true iff every hint character equals HINT_CORRECT. -/
def isSecretSolved : List Char → Bool
  | [] => true
  | h :: rest => if h ≠ HINT_CORRECT then false else isSecretSolved rest

/-- resetInput from mastermind.ino: clear the input count, return to the
input state (LCD effects are out of scope). -/
def resetInput (s : GameData) : GameData :=
  { s with inputCount := 0, state := GS_INPUT }

/-- newGame from mastermind.ino: regenerate the secret (duplicates
disallowed), reset the try count, then reset the input. -/
def newGame (g : Nat → Nat) (s : GameData) : GameData :=
  resetInput
    { s with
      secret := (generateSecret g false s.pool).1
      pool := (generateSecret g false s.pool).2
      tries := 0 }

/-- One processed key event of `loop()` from mastermind.ino: returns the
updated game data and the outcome message displayed, if any.  `g` is the
entropy stream available to this event's `random` calls. -/
def step (g : Nat → Nat) (key : Char) (s : GameData) : GameData × Option Outcome :=
  if s.state = GS_INPUT ∧ '0' ≤ key ∧ key ≤ '9' then
    if SECRET_LENGTH ≤ s.inputCount + 1 then
      if isSecretSolved (checkInput (s.input.set s.inputCount key) s.secret SECRET_LENGTH) then
        ({ s with
            input := s.input.set s.inputCount key
            inputCount := s.inputCount + 1
            tries := s.tries + 1
            hints := checkInput (s.input.set s.inputCount key) s.secret SECRET_LENGTH
            state := GS_GAMEOVER }, some Outcome.win)
      else if TRIES_MAX ≤ s.tries + 1 then
        ({ s with
            input := s.input.set s.inputCount key
            inputCount := s.inputCount + 1
            tries := s.tries + 1
            hints := checkInput (s.input.set s.inputCount key) s.secret SECRET_LENGTH
            state := GS_GAMEOVER }, some Outcome.lose)
      else
        ({ s with
            input := s.input.set s.inputCount key
            inputCount := s.inputCount + 1
            tries := s.tries + 1
            hints := checkInput (s.input.set s.inputCount key) s.secret SECRET_LENGTH
            state := GS_ROUNDOVER }, some Outcome.nextTry)
    else
      ({ s with
          input := s.input.set s.inputCount key
          inputCount := s.inputCount + 1 }, none)
  else if key = BUTTON_NEWROUND then
    if s.state = GS_INPUT ∨ s.state = GS_ROUNDOVER then (resetInput s, none)
    else if s.state = GS_GAMEOVER then (newGame g s, none)
    else (s, none)
  else if key = BUTTON_NEWGAME then (newGame g s, none)
  else (s, none)

/-- The session states reachable from program start: `setup()` calls
`newGame` on the zero-initialized globals, then `loop()` processes one key
event at a time. -/
inductive Reachable : GameData → Prop where
  | boot (g : Nat → Nat) : Reachable (newGame g initialData)
  | next (g : Nat → Nat) (key : Char) (s : GameData) :
      Reachable s → Reachable (step g key s).1

/-- The inductive invariant of the session state. -/
abbrev SessionInv (s : GameData) : Prop :=
  s.tries ≤ TRIES_MAX ∧
  (s.state ≠ GS_GAMEOVER → s.tries < TRIES_MAX) ∧
  s.inputCount ≤ SECRET_LENGTH ∧
  (s.state = GS_INPUT → s.inputCount < SECRET_LENGTH) ∧
  s.input.length = SECRET_LENGTH ∧
  s.pool.Perm randomDigitPool ∧
  s.secret.Nodup ∧
  s.secret.length = SECRET_LENGTH

/-- An all-zero entropy stream, used for concrete witnesses. -/
def g0 : Nat → Nat := fun _ => 0

example : shuffleSort g0 ['a', 'b'] 2 = ['b', 'a'] := by decide
example : checkInput ['1', '2', '4', '3'] ['1', '2', '3', '4'] SECRET_LENGTH
    = ['!', '!', '?', '?'] := by decide
example : checkInput ['5', '6', '7', '8'] ['1', '2', '3', '4'] SECRET_LENGTH
    = ['-', '-', '-', '-'] := by decide
example : checkInput ['4', '4', '4', '1'] ['1', '2', '3', '4'] SECRET_LENGTH
    = ['?', '?', '?', '?'] := by decide

theorem getD_cons_set_perm :
    ∀ (l : List Char) (j : Nat) (a : Char), j < l.length →
      (l.getD j ' ' :: l.set j a).Perm (a :: l) := by
  intro l
  induction l with
  | nil => intro j a hj; simp at hj
  | cons x t ih =>
    intro j a hj
    cases j with
    | zero =>
      simpa using List.Perm.swap a x t
    | succ j =>
      have hjt : j < t.length := by simpa using Nat.lt_of_succ_lt_succ hj
      have h1 := ih j a hjt
      simp only [List.getD_cons_succ, List.set_cons_succ]
      exact (List.Perm.swap x (t.getD j ' ') (t.set j a)).trans
        ((h1.cons x).trans (List.Perm.swap a x t))

theorem listSwap_perm :
    ∀ (l : List Char) (i j : Nat), i < l.length → j < l.length →
      (listSwap l i j).Perm l := by
  intro l
  induction l with
  | nil => intro i j hi _; simp at hi
  | cons x t ih =>
    intro i j hi hj
    match i, j with
    | 0, 0 => simp [listSwap]
    | 0, j + 1 =>
      have hjt : j < t.length := by simpa using Nat.lt_of_succ_lt_succ hj
      simpa [listSwap] using getD_cons_set_perm t j x hjt
    | i + 1, 0 =>
      have hit : i < t.length := by simpa using Nat.lt_of_succ_lt_succ hi
      simpa [listSwap] using getD_cons_set_perm t i x hit
    | i + 1, j + 1 =>
      have hit : i < t.length := by simpa using Nat.lt_of_succ_lt_succ hi
      have hjt : j < t.length := by simpa using Nat.lt_of_succ_lt_succ hj
      simpa [listSwap] using (ih i j hit hjt).cons x

theorem listSwap_length (l : List Char) (i j : Nat) :
    (listSwap l i j).length = l.length := by
  simp [listSwap]

theorem shuffleStep_perm (g : Nat → Nat) (i : Nat) (arr : List Char)
    (h2 : 2 ≤ arr.length) (hi : i < arr.length) :
    (shuffleStep g i arr).Perm arr := by
  apply listSwap_perm _ _ _ hi
  by_cases h0 : 0 < i
  · have hmod : g i % i < i := Nat.mod_lt _ h0
    have hr : randomNumber g i i = g i % i := by simp [randomNumber, h0]
    omega
  · have hz : i = 0 := by omega
    subst hz
    have hr : randomNumber g 0 0 = 0 := by simp [randomNumber]
    omega

theorem shuffleAux_perm (g : Nat → Nat) :
    ∀ (m : Nat) (arr : List Char), 2 ≤ arr.length → m ≤ arr.length →
      (shuffleAux g arr m).Perm arr := by
  intro m
  induction m with
  | zero => intro arr _ _; exact List.Perm.refl arr
  | succ m ih =>
    intro arr h2 hm
    have hstep := shuffleStep_perm g m arr h2 (by omega)
    have hlen : (shuffleStep g m arr).length = arr.length := hstep.length_eq
    have hrec := ih (shuffleStep g m arr) (by omega) (by omega)
    exact hrec.trans hstep

theorem shuffleSort_perm (g : Nat → Nat) (arr : List Char)
    (h2 : 2 ≤ arr.length) (n : Nat) (hn : n ≤ arr.length) :
    (shuffleSort g arr n).Perm arr :=
  shuffleAux_perm g n arr h2 hn

theorem shuffleAux_eq_swap01 (g : Nat → Nat) :
    ∀ (m : Nat) (arr : List Char),
      shuffleAux g arr (m + 1) = listSwap (shuffleSortSpecC2 g arr (m + 1)) 0 1 := by
  intro m
  induction m with
  | zero =>
    intro arr
    show shuffleStep g 0 arr = listSwap arr 0 1
    simp [shuffleStep, randomNumber]
  | succ m ih =>
    intro arr
    show shuffleAux g (shuffleStep g (m + 1) arr) (m + 1)
        = listSwap (shuffleSortSpecC2 g (shuffleStep g (m + 1) arr) (m + 1)) 0 1
    exact ih (shuffleStep g (m + 1) arr)

theorem shuffleSortC_none (g : Nat → Nat) :
    ∀ (n : Nat), 1 ≤ n → ∀ (arr : List Char), shuffleSortC g arr n = none := by
  intro n
  induction n with
  | zero => intro h; omega
  | succ n ih =>
    intro _ arr
    cases n with
    | zero => simp [shuffleSortC, randomC]
    | succ k =>
      have hsome : randomC g (k + 1) (k + 1) = some (g (k + 1) % (k + 1)) := by
        simp [randomC]
      simp only [shuffleSortC, hsome]
      exact ih (by omega) _

/-- C2: the claim describes the `shuffleSort` loop as running `i` from
`n-1` down to `1`; the code's `for(i = n; i-- > 0;)` loop also runs the
iteration `i = 0`, where it swaps positions 0 and 1, so on `['a','b']`
with the all-zero entropy stream the code yields `['b','a']` while the
claimed loop yields `['a','b']`. -/
theorem shuffleSort_stops_at_one_counterexample :
    shuffleSort g0 ['a', 'b'] 2 ≠ shuffleSortSpecC2 g0 ['a', 'b'] 2 := by
  decide

/-- C2 (amended): `shuffleSort(arr, n)` iterates `i` from `n-1` down to 0;
for `i ≥ 1` the swap index `z = randomNumber(i) + 1` lies in `[1, i]`
(helper value in `[0, i)` plus 1); the final iteration `i = 0` draws
`z = 1` (the helper's zero guard returns 0) and unconditionally swaps
`arr[0]` with `arr[1]`; so the whole run equals the claimed down-to-1 loop
followed by that swap, index 0 is never chosen as the `z` swap target, and
the only write into position 0 happens through the `i` side at `i = 0`. -/
theorem shuffleSort_loop_and_swap_range (g : Nat → Nat) (arr : List Char) (n : Nat)
    (hn : 1 ≤ n) :
    shuffleSort g arr n = listSwap (shuffleSortSpecC2 g arr n) 0 1 ∧
    (∀ i, 1 ≤ i → 1 ≤ randomNumber g i i + 1 ∧ randomNumber g i i + 1 ≤ i) ∧
    randomNumber g 0 0 + 1 = 1 := by
  obtain ⟨m, rfl⟩ : ∃ m, n = m + 1 := ⟨n - 1, by omega⟩
  refine ⟨shuffleAux_eq_swap01 g m arr, ?_, by simp [randomNumber]⟩
  intro i hi
  have h0 : 0 < i := by omega
  have hmod : g i % i < i := Nat.mod_lt _ h0
  have hr : randomNumber g i i = g i % i := by simp [randomNumber, h0]
  omega

/-- Witness for the amended C2 at `n = 2`, `arr = ['a','b']`. -/
theorem shuffleSort_loop_and_swap_range_witness :
    1 ≤ 2 ∧
    (shuffleSort g0 ['a', 'b'] 2 = listSwap (shuffleSortSpecC2 g0 ['a', 'b'] 2) 0 1 ∧
     (∀ i, 1 ≤ i → 1 ≤ randomNumber g0 i i + 1 ∧ randomNumber g0 i i + 1 ≤ i) ∧
     randomNumber g0 0 0 + 1 = 1) :=
  ⟨by decide, shuffleSort_loop_and_swap_range g0 ['a', 'b'] 2 (by decide)⟩

/-- C10: for every `n ≥ 1` the test-harness shuffle
(test/src/ProductionCode.c) reaches its final iteration `i = 0` and there
evaluates `rand() % 0`, the unguarded modulo by zero (`none` in the
embedding), whereas the .ino `shuffleSort`, whose `randomNumber` guards
`n = 0` by returning 0, instead ends with an unconditional swap of
positions 0 and 1. -/
theorem testShuffle_mod_zero (g : Nat → Nat) (arr : List Char) (n : Nat) (hn : 1 ≤ n) :
    shuffleSortC g arr n = none ∧
    shuffleSort g arr n = listSwap (shuffleSortSpecC2 g arr n) 0 1 := by
  obtain ⟨m, rfl⟩ : ∃ m, n = m + 1 := ⟨n - 1, by omega⟩
  exact ⟨shuffleSortC_none g (m + 1) (by omega) arr, shuffleAux_eq_swap01 g m arr⟩

/-- Witness for C10 at `n = 10`, the digit pool. -/
theorem testShuffle_mod_zero_witness :
    1 ≤ 10 ∧
    (shuffleSortC g0 randomDigitPool 10 = none ∧
     shuffleSort g0 randomDigitPool 10
       = listSwap (shuffleSortSpecC2 g0 randomDigitPool 10) 0 1) :=
  ⟨by decide, testShuffle_mod_zero g0 randomDigitPool 10 (by decide)⟩


theorem scanCond_shift (c s : Char) (rest : List Char) (i j0 : Nat)
    (hside : c ≠ s ∨ i ≠ j0) :
    (j0 + 1 ≤ i ∧ i - (j0 + 1) < rest.length ∧ c = rest.getD (i - (j0 + 1)) ' ')
      ↔ (j0 ≤ i ∧ i - j0 < (s :: rest).length ∧ c = (s :: rest).getD (i - j0) ' ') := by
  constructor
  · rintro ⟨h1, h2, h3⟩
    refine ⟨by omega, by simp only [List.length_cons]; omega, ?_⟩
    obtain ⟨d, hd⟩ : ∃ d, i - j0 = d + 1 := ⟨i - (j0 + 1), by omega⟩
    rw [hd, List.getD_cons_succ]
    have hde : i - (j0 + 1) = d := by omega
    rwa [hde] at h3
  · rintro ⟨h1, h2, h3⟩
    by_cases hij : i = j0
    · subst hij
      simp only [Nat.sub_self, List.getD_cons_zero] at h3
      rcases hside with hcs | hij2
      · exact absurd h3 hcs
      · exact absurd rfl hij2
    · have h1' : j0 + 1 ≤ i := by omega
      obtain ⟨d, hd⟩ : ∃ d, i - j0 = d + 1 := ⟨i - (j0 + 1), by omega⟩
      rw [hd, List.getD_cons_succ] at h3
      refine ⟨h1', by simp only [List.length_cons] at h2; omega, ?_⟩
      have hde : i - (j0 + 1) = d := by omega
      rw [hde]
      exact h3

theorem innerScan_eq (c : Char) (i : Nat) :
    ∀ (secret : List Char) (j0 : Nat) (h : Char),
      innerScan c i secret j0 h =
        if j0 ≤ i ∧ i - j0 < secret.length ∧ c = secret.getD (i - j0) ' ' then HINT_CORRECT
        else if c ∈ secret then HINT_MISPLACED
        else h := by
  intro secret
  induction secret with
  | nil =>
    intro j0 h
    simp [innerScan]
  | cons s rest ih =>
    intro j0 h
    simp only [innerScan]
    by_cases hcs : c = s
    · rw [if_pos hcs]
      by_cases hij : i = j0
      · rw [if_pos hij]
        have hc : j0 ≤ i ∧ i - j0 < (s :: rest).length ∧ c = (s :: rest).getD (i - j0) ' ' := by
          subst hij
          simp [hcs]
        rw [if_pos hc]
      · rw [if_neg hij, ih]
        have hAB := scanCond_shift c s rest i j0 (Or.inr hij)
        have hmem : c ∈ s :: rest := by simp [hcs]
        by_cases hB : j0 ≤ i ∧ i - j0 < (s :: rest).length ∧ c = (s :: rest).getD (i - j0) ' '
        · rw [if_pos hB, if_pos (hAB.mpr hB)]
        · rw [if_neg hB, if_neg (fun hA => hB (hAB.mp hA)), if_pos hmem, ite_self]
    · rw [if_neg hcs, ih]
      have hAB := scanCond_shift c s rest i j0 (Or.inl hcs)
      have hmem2 : (c ∈ rest) ↔ (c ∈ s :: rest) := by simp [hcs]
      by_cases hB : j0 ≤ i ∧ i - j0 < (s :: rest).length ∧ c = (s :: rest).getD (i - j0) ' '
      · rw [if_pos hB, if_pos (hAB.mpr hB)]
      · rw [if_neg hB, if_neg (fun hA => hB (hAB.mp hA))]
        by_cases hm : c ∈ s :: rest
        · rw [if_pos hm, if_pos (hmem2.mpr hm)]
        · rw [if_neg hm, if_neg (fun hr => hm (hmem2.mp hr))]

/-- C1: for every guess and secret of length SECRET_LENGTH, `checkInput`
yields at each position `i`: HINT_CORRECT iff `guess[i] = secret[i]`;
HINT_MISPLACED iff `guess[i]` differs from `secret[i]` but occurs at some
other secret position `j`; HINT_WRONG otherwise.  In particular MISPLACED
credit is not limited by the count of unmatched secret digits: every
position whose digit occurs elsewhere in the secret gets MISPLACED,
regardless of how that digit is matched at other guess positions. -/
theorem checkInput_hint_characterization (input secret : List Char)
    (hin : input.length = SECRET_LENGTH) (hsec : secret.length = SECRET_LENGTH)
    (i : Nat) (hi : i < SECRET_LENGTH) :
    ((checkInput input secret SECRET_LENGTH).getD i ' ' = HINT_CORRECT
        ↔ input.getD i ' ' = secret.getD i ' ') ∧
    ((checkInput input secret SECRET_LENGTH).getD i ' ' = HINT_MISPLACED
        ↔ (input.getD i ' ' ≠ secret.getD i ' ' ∧
            ∃ j, j < SECRET_LENGTH ∧ j ≠ i ∧ input.getD i ' ' = secret.getD j ' ')) ∧
    ((checkInput input secret SECRET_LENGTH).getD i ' ' = HINT_WRONG
        ↔ ∀ j, j < SECRET_LENGTH → input.getD i ' ' ≠ secret.getD j ' ') := by
  have hlen : (checkInput input secret SECRET_LENGTH).length = SECRET_LENGTH := by
    simp [checkInput]
  have hil : i < (checkInput input secret SECRET_LENGTH).length := by
    rw [hlen]; exact hi
  have hget : (checkInput input secret SECRET_LENGTH).getD i ' '
      = innerScan (input.getD i ' ') i secret 0 HINT_WRONG := by
    rw [List.getD_eq_getElem _ _ hil]
    simp [checkInput]
  have hmemiff : input.getD i ' ' ∈ secret
      ↔ ∃ j, j < SECRET_LENGTH ∧ input.getD i ' ' = secret.getD j ' ' := by
    rw [List.mem_iff_getElem]
    constructor
    · rintro ⟨k, hk, hke⟩
      refine ⟨k, by rw [hsec] at hk; exact hk, ?_⟩
      rw [List.getD_eq_getElem _ _ hk]
      exact hke.symm
    · rintro ⟨j, hj, hje⟩
      have hjl : j < secret.length := by rw [hsec]; exact hj
      refine ⟨j, hjl, ?_⟩
      rw [List.getD_eq_getElem _ _ hjl] at hje
      exact hje.symm
  have hcond : (0 ≤ i ∧ i - 0 < secret.length ∧ input.getD i ' ' = secret.getD (i - 0) ' ')
      ↔ input.getD i ' ' = secret.getD i ' ' := by
    simp only [Nat.sub_zero, Nat.zero_le, true_and, hsec]
    constructor
    · rintro ⟨-, h3⟩; exact h3
    · intro h3; exact ⟨hi, h3⟩
  rw [hget, innerScan_eq]
  by_cases hc : input.getD i ' ' = secret.getD i ' '
  · rw [if_pos (hcond.mpr hc)]
    refine ⟨⟨fun _ => hc, fun _ => rfl⟩, ?_, ?_⟩
    · constructor
      · intro hef; exact absurd hef (by decide)
      · intro hcc; exact absurd hc hcc.1
    · constructor
      · intro hef; exact absurd hef (by decide)
      · intro hall; exact absurd hc (hall i hi)
  · rw [if_neg (fun hp => hc (hcond.mp hp))]
    by_cases hm : input.getD i ' ' ∈ secret
    · rw [if_pos hm]
      obtain ⟨k, hk, hkne, hke⟩ :
          ∃ k, k < SECRET_LENGTH ∧ k ≠ i ∧ input.getD i ' ' = secret.getD k ' ' := by
        obtain ⟨j, hj, hje⟩ := hmemiff.mp hm
        refine ⟨j, hj, ?_, hje⟩
        intro hji
        subst hji
        exact hc hje
      refine ⟨?_, ?_, ?_⟩
      · exact ⟨fun hef => absurd hef (by decide), fun hcc => absurd hcc hc⟩
      · exact ⟨fun _ => ⟨hc, k, hk, hkne, hke⟩, fun _ => rfl⟩
      · constructor
        · intro hef; exact absurd hef (by decide)
        · intro hall; exact absurd hke (hall k hk)
    · rw [if_neg hm]
      refine ⟨?_, ?_, ?_⟩
      · exact ⟨fun hef => absurd hef (by decide), fun hcc => absurd hcc hc⟩
      · constructor
        · intro hef; exact absurd hef (by decide)
        · rintro ⟨-, j, hj, -, hje⟩
          exact absurd (hmemiff.mpr ⟨j, hj, hje⟩) hm
      · exact ⟨fun _ j hj hje => hm (hmemiff.mpr ⟨j, hj, hje⟩), fun _ => rfl⟩

/-- Witness for C1: secret `1234`, guess `4441`, position 1; the digit `4`
occurs once in the secret yet earns MISPLACED at guess positions 0, 1
and 2. -/
theorem checkInput_hint_characterization_witness :
    ((List.length ['4', '4', '4', '1'] = SECRET_LENGTH) ∧
     (List.length ['1', '2', '3', '4'] = SECRET_LENGTH) ∧ 1 < SECRET_LENGTH) ∧
    (((checkInput ['4', '4', '4', '1'] ['1', '2', '3', '4'] SECRET_LENGTH).getD 1 ' ' = HINT_CORRECT
        ↔ (['4', '4', '4', '1'] : List Char).getD 1 ' ' = (['1', '2', '3', '4'] : List Char).getD 1 ' ') ∧
     ((checkInput ['4', '4', '4', '1'] ['1', '2', '3', '4'] SECRET_LENGTH).getD 1 ' ' = HINT_MISPLACED
        ↔ ((['4', '4', '4', '1'] : List Char).getD 1 ' ' ≠ (['1', '2', '3', '4'] : List Char).getD 1 ' ' ∧
           ∃ j, j < SECRET_LENGTH ∧ j ≠ 1 ∧
             (['4', '4', '4', '1'] : List Char).getD 1 ' ' = (['1', '2', '3', '4'] : List Char).getD j ' ')) ∧
     ((checkInput ['4', '4', '4', '1'] ['1', '2', '3', '4'] SECRET_LENGTH).getD 1 ' ' = HINT_WRONG
        ↔ ∀ j, j < SECRET_LENGTH →
            (['4', '4', '4', '1'] : List Char).getD 1 ' ' ≠ (['1', '2', '3', '4'] : List Char).getD j ' ')) :=
  ⟨⟨by decide, by decide, by decide⟩,
    checkInput_hint_characterization ['4', '4', '4', '1'] ['1', '2', '3', '4']
      (by decide) (by decide) 1 (by decide)⟩

theorem isSecretSolved_iff (hints : List Char) :
    isSecretSolved hints = true ↔ ∀ h ∈ hints, h = HINT_CORRECT := by
  induction hints with
  | nil => simp [isSecretSolved]
  | cons x rest ih =>
    by_cases hx : x = HINT_CORRECT
    · simp [isSecretSolved, hx, ih]
    · simp [isSecretSolved, hx]

theorem sessionInv_newGame (g : Nat → Nat) (s : GameData)
    (hpool : s.pool.Perm randomDigitPool) (hinlen : s.input.length = SECRET_LENGTH) :
    SessionInv (newGame g s) := by
  have hplen : s.pool.length = 10 := by
    have hle := hpool.length_eq
    simpa [randomDigitPool] using hle
  have hperm : (shuffleSort g s.pool DIGIT_COUNT).Perm s.pool :=
    shuffleSort_perm g s.pool (by omega) DIGIT_COUNT (by rw [hplen]; decide)
  have hperm2 : (shuffleSort g s.pool DIGIT_COUNT).Perm randomDigitPool := hperm.trans hpool
  have hnodup : (shuffleSort g s.pool DIGIT_COUNT).Nodup :=
    hperm2.nodup_iff.mpr (by decide)
  have hshlen : (shuffleSort g s.pool DIGIT_COUNT).length = 10 := by
    rw [hperm.length_eq, hplen]
  have hgen1 : (generateSecret g false s.pool).1
      = (shuffleSort g s.pool DIGIT_COUNT).take SECRET_LENGTH := by
    simp [generateSecret]
  have hgen2 : (generateSecret g false s.pool).2 = shuffleSort g s.pool DIGIT_COUNT := by
    simp [generateSecret]
  refine ⟨?_, ?_, ?_, ?_, ?_, ?_, ?_, ?_⟩
  · simp [newGame, resetInput, TRIES_MAX]
  · simp [newGame, resetInput, TRIES_MAX]
  · simp [newGame, resetInput, SECRET_LENGTH]
  · simp [newGame, resetInput, SECRET_LENGTH]
  · simp [newGame, resetInput, hinlen]
  · simpa [newGame, resetInput, hgen2] using hperm2
  · simpa [newGame, resetInput, hgen1] using
      (List.Nodup.sublist (List.take_sublist _ _) hnodup)
  · simp [newGame, resetInput, hgen1, SECRET_LENGTH, hshlen]

theorem sessionInv_step (g : Nat → Nat) (key : Char) (s : GameData)
    (hs : SessionInv s) : SessionInv (step g key s).1 := by
  obtain ⟨h1, h2, h3, h4, h5, h6, h7, h8⟩ := hs
  simp only [step]
  split_ifs with hd hfull hsol htr hnr hio hgo hng
  · have htl : s.tries < TRIES_MAX := h2 (by simp [hd.1])
    have hcl : s.inputCount < SECRET_LENGTH := h4 hd.1
    exact ⟨Nat.succ_le_of_lt htl, fun hx => absurd rfl hx, Nat.succ_le_of_lt hcl,
      fun hx => False.elim ((by decide : GS_GAMEOVER ≠ GS_INPUT) hx), by simp [h5], h6, h7, h8⟩
  · have htl : s.tries < TRIES_MAX := h2 (by simp [hd.1])
    have hcl : s.inputCount < SECRET_LENGTH := h4 hd.1
    exact ⟨Nat.succ_le_of_lt htl, fun hx => absurd rfl hx, Nat.succ_le_of_lt hcl,
      fun hx => False.elim ((by decide : GS_GAMEOVER ≠ GS_INPUT) hx), by simp [h5], h6, h7, h8⟩
  · have hcl : s.inputCount < SECRET_LENGTH := h4 hd.1
    have htl : s.tries + 1 < TRIES_MAX := Nat.not_le.mp htr
    exact ⟨Nat.le_of_lt htl, fun _ => htl, Nat.succ_le_of_lt hcl,
      fun hx => False.elim ((by decide : GS_ROUNDOVER ≠ GS_INPUT) hx), by simp [h5], h6, h7, h8⟩
  · have hcl : s.inputCount + 1 < SECRET_LENGTH := Nat.not_le.mp hfull
    exact ⟨h1, h2, Nat.le_of_lt hcl, fun _ => hcl, by simp [h5], h6, h7, h8⟩
  · have hne : s.state ≠ GS_GAMEOVER := by
      rcases hio with h | h <;> simp [h]
    exact ⟨h1, fun _ => h2 hne, Nat.zero_le _, fun _ => (by decide : 0 < SECRET_LENGTH),
      h5, h6, h7, h8⟩
  · exact sessionInv_newGame g s h6 h5
  · exact ⟨h1, h2, h3, h4, h5, h6, h7, h8⟩
  · exact sessionInv_newGame g s h6 h5
  · exact ⟨h1, h2, h3, h4, h5, h6, h7, h8⟩

theorem reachable_sessionInv (s : GameData) (h : Reachable s) : SessionInv s := by
  induction h with
  | boot g => exact sessionInv_newGame g initialData (List.Perm.refl _) (by decide)
  | next g key s hs ih => exact sessionInv_step g key s ih

/-- C5: in every reachable session state, `0 ≤ tries ≤ TRIES_MAX`; whenever
the state is not GS_GAMEOVER (i.e. the game continues), `tries < TRIES_MAX`
— equivalently, the state becomes GS_GAMEOVER the instant `tries` reaches
TRIES_MAX unsolved (and on a solve regardless of tries), so `tries` is
never incremented past TRIES_MAX. -/
theorem tries_invariant (s : GameData) (h : Reachable s) :
    s.tries ≤ TRIES_MAX ∧
    (s.state = GS_INPUT ∨ s.state = GS_ROUNDOVER → s.tries < TRIES_MAX) := by
  obtain ⟨h1, h2, -, -, -, -, -, -⟩ := reachable_sessionInv s h
  refine ⟨h1, fun hst => h2 ?_⟩
  rcases hst with hx | hx <;> simp [hx]

/-- Witness for C5 at the freshly booted state. -/
theorem tries_invariant_witness :
    (newGame g0 initialData).tries ≤ TRIES_MAX ∧
    ((newGame g0 initialData).state = GS_INPUT ∨ (newGame g0 initialData).state = GS_ROUNDOVER
      → (newGame g0 initialData).tries < TRIES_MAX) :=
  tries_invariant (newGame g0 initialData) (Reachable.boot g0)

/-- C9: in every reachable session state, `inputCount ≤ SECRET_LENGTH`, and
in state GS_INPUT even `inputCount < SECRET_LENGTH`, while the input buffer
always has length SECRET_LENGTH; hence the digit-append write
`input[inputCount]` performed in GS_INPUT is always within the buffer. -/
theorem inputCount_in_bounds (s : GameData) (h : Reachable s) :
    s.inputCount ≤ SECRET_LENGTH ∧
    (s.state = GS_INPUT → s.inputCount < SECRET_LENGTH) ∧
    s.input.length = SECRET_LENGTH := by
  obtain ⟨-, -, h3, h4, h5, -, -, -⟩ := reachable_sessionInv s h
  exact ⟨h3, h4, h5⟩

/-- Witness for C9 after one digit key in the fresh game. -/
theorem inputCount_in_bounds_witness :
    (step g0 '5' (newGame g0 initialData)).1.inputCount ≤ SECRET_LENGTH ∧
    ((step g0 '5' (newGame g0 initialData)).1.state = GS_INPUT
      → (step g0 '5' (newGame g0 initialData)).1.inputCount < SECRET_LENGTH) ∧
    (step g0 '5' (newGame g0 initialData)).1.input.length = SECRET_LENGTH :=
  inputCount_in_bounds (step g0 '5' (newGame g0 initialData)).1
    (Reachable.next g0 '5' (newGame g0 initialData) (Reachable.boot g0))

/-- C4: with duplicates disallowed the generated secret consists of
pairwise distinct digits: the shuffled pool keeps its elements, so its
first `L` entries are distinct for any `L ≤ DIGIT_COUNT`, the direct
output of `generateSecret(false)` is distinct, and in every reachable
state (the pool being shuffled in place again each game) the current
secret is distinct and of length SECRET_LENGTH. -/
theorem generateSecret_nodup (g : Nat → Nat) (pool : List Char) (L : Nat) (s : GameData)
    (hnd : pool.Nodup) (hlen : pool.length = DIGIT_COUNT) (hL : L ≤ DIGIT_COUNT)
    (hr : Reachable s) :
    ((shuffleSort g pool DIGIT_COUNT).take L).Nodup ∧
    (generateSecret g false pool).1.Nodup ∧
    s.secret.Nodup ∧ s.secret.length = SECRET_LENGTH := by
  have hperm : (shuffleSort g pool DIGIT_COUNT).Perm pool :=
    shuffleSort_perm g pool (by rw [hlen]; decide) DIGIT_COUNT (by rw [hlen])
  have hnd2 : (shuffleSort g pool DIGIT_COUNT).Nodup := hperm.nodup_iff.mpr hnd
  have htake : ((shuffleSort g pool DIGIT_COUNT).take L).Nodup :=
    List.Nodup.sublist (List.take_sublist _ _) hnd2
  obtain ⟨-, -, -, -, -, -, h7, h8⟩ := reachable_sessionInv s hr
  refine ⟨htake, ?_, h7, h8⟩
  have hgen1 : (generateSecret g false pool).1
      = (shuffleSort g pool DIGIT_COUNT).take SECRET_LENGTH := by
    simp [generateSecret]
  rw [hgen1]
  exact List.Nodup.sublist (List.take_sublist _ _) hnd2

/-- Witness for C4 on the actual digit pool, `L = 4`, and a reachable state. -/
theorem generateSecret_nodup_witness :
    (randomDigitPool.Nodup ∧ randomDigitPool.length = DIGIT_COUNT ∧ 4 ≤ DIGIT_COUNT) ∧
    (((shuffleSort g0 randomDigitPool DIGIT_COUNT).take 4).Nodup ∧
     (generateSecret g0 false randomDigitPool).1.Nodup ∧
     (newGame g0 initialData).secret.Nodup ∧
     (newGame g0 initialData).secret.length = SECRET_LENGTH) :=
  ⟨⟨by decide, by decide, by decide⟩,
   generateSecret_nodup g0 randomDigitPool 4 (newGame g0 initialData)
     (by decide) (by decide) (by decide) (Reachable.boot g0)⟩

/-- C6: a key event that triggers no transition leaves the entire session
snapshot unchanged: a digit key received in GS_ROUNDOVER or GS_GAMEOVER,
and any key outside the digit alphabet and the new-round/new-game symbols,
in every state. -/
theorem ignoredKey_no_change (g : Nat → Nat) (key : Char) (s : GameData)
    (h : (('0' ≤ key ∧ key ≤ '9') ∧ (s.state = GS_ROUNDOVER ∨ s.state = GS_GAMEOVER)) ∨
         (¬('0' ≤ key ∧ key ≤ '9') ∧ key ≠ BUTTON_NEWROUND ∧ key ≠ BUTTON_NEWGAME)) :
    step g key s = (s, none) := by
  rcases h with ⟨hdig, hst⟩ | ⟨hnd, hnr, hng⟩
  · have hsne : s.state ≠ GS_INPUT := by rcases hst with hx | hx <;> simp [hx]
    have hc1 : ¬(s.state = GS_INPUT ∧ '0' ≤ key ∧ key ≤ '9') := fun hc => hsne hc.1
    have hknr : key ≠ BUTTON_NEWROUND := by
      intro he
      subst he
      exact absurd hdig.1 (by decide)
    have hkng : key ≠ BUTTON_NEWGAME := by
      intro he
      subst he
      exact absurd hdig.1 (by decide)
    simp [step, hc1, hknr, hkng]
  · have hc1 : ¬(s.state = GS_INPUT ∧ '0' ≤ key ∧ key ≤ '9') := fun hc => hnd hc.2
    simp [step, hc1, hnr, hng]

/-- Witness for C6: the unused keypad key A in the initial state. -/
theorem ignoredKey_no_change_witness :
    (((('0' ≤ 'A' ∧ 'A' ≤ '9') ∧
        (initialData.state = GS_ROUNDOVER ∨ initialData.state = GS_GAMEOVER)) ∨
      (¬('0' ≤ 'A' ∧ 'A' ≤ '9') ∧ 'A' ≠ BUTTON_NEWROUND ∧ 'A' ≠ BUTTON_NEWGAME))) ∧
    step g0 'A' initialData = (initialData, none) :=
  ⟨Or.inr (by decide), ignoredKey_no_change g0 'A' initialData (Or.inr (by decide))⟩

/-- C7: a new-game event (the new-game key in any state, or the new-round
key in GS_GAMEOVER) runs `newGame`: tries = 0, the guess is empty, the
state is GS_INPUT, and the secret is freshly regenerated by a new call to
the generator on the current pool. -/
theorem newGame_resets (g : Nat → Nat) (key : Char) (s : GameData)
    (h : key = BUTTON_NEWGAME ∨ (key = BUTTON_NEWROUND ∧ s.state = GS_GAMEOVER)) :
    step g key s = (newGame g s, none) ∧
    (newGame g s).tries = 0 ∧
    (newGame g s).inputCount = 0 ∧
    (newGame g s).state = GS_INPUT ∧
    (newGame g s).secret = (generateSecret g false s.pool).1 ∧
    (generateSecret g false s.pool).1
      = (shuffleSort g s.pool DIGIT_COUNT).take SECRET_LENGTH := by
  refine ⟨?_, by simp [newGame, resetInput], by simp [newGame, resetInput],
    by simp [newGame, resetInput], by simp [newGame, resetInput], by simp [generateSecret]⟩
  rcases h with he | ⟨he, hst⟩
  · subst he
    have hc1 : ¬(s.state = GS_INPUT ∧ '0' ≤ BUTTON_NEWGAME ∧ BUTTON_NEWGAME ≤ '9') := by
      intro hc
      exact absurd hc.2.1 (by decide)
    have hne : BUTTON_NEWGAME ≠ BUTTON_NEWROUND := by decide
    simp [step, hc1, hne]
  · subst he
    have hc1 : ¬(s.state = GS_INPUT ∧ '0' ≤ BUTTON_NEWROUND ∧ BUTTON_NEWROUND ≤ '9') := by
      intro hc
      exact absurd hc.2.1 (by decide)
    have hio : ¬(s.state = GS_INPUT ∨ s.state = GS_ROUNDOVER) := by
      rw [hst]
      rintro (hx | hx) <;> exact absurd hx (by decide)
    simp [step, hc1, hio, hst]

/-- Witness for C7: the new-game key in the initial state. -/
theorem newGame_resets_witness :
    ('#' = BUTTON_NEWGAME ∨ ('#' = BUTTON_NEWROUND ∧ initialData.state = GS_GAMEOVER)) ∧
    (step g0 '#' initialData = (newGame g0 initialData, none) ∧
     (newGame g0 initialData).tries = 0 ∧
     (newGame g0 initialData).inputCount = 0 ∧
     (newGame g0 initialData).state = GS_INPUT ∧
     (newGame g0 initialData).secret = (generateSecret g0 false initialData.pool).1 ∧
     (generateSecret g0 false initialData.pool).1
       = (shuffleSort g0 initialData.pool DIGIT_COUNT).take SECRET_LENGTH) :=
  ⟨Or.inl rfl, newGame_resets g0 '#' initialData (Or.inl rfl)⟩

/-- C8: the new-round key in GS_INPUT or GS_ROUNDOVER runs `resetInput`:
state GS_INPUT, guess cleared, secret and try count unchanged. -/
theorem newRound_preserves (g : Nat → Nat) (s : GameData)
    (h : s.state = GS_INPUT ∨ s.state = GS_ROUNDOVER) :
    step g BUTTON_NEWROUND s = (resetInput s, none) ∧
    (resetInput s).state = GS_INPUT ∧
    (resetInput s).inputCount = 0 ∧
    (resetInput s).secret = s.secret ∧
    (resetInput s).tries = s.tries := by
  refine ⟨?_, rfl, rfl, rfl, rfl⟩
  have hc1 : ¬(s.state = GS_INPUT ∧ '0' ≤ BUTTON_NEWROUND ∧ BUTTON_NEWROUND ≤ '9') := by
    intro hc
    exact absurd hc.2.1 (by decide)
  simp only [step]
  rw [if_neg hc1, if_true, if_pos h]

/-- Witness for C8: the new-round key in the initial (input) state. -/
theorem newRound_preserves_witness :
    (initialData.state = GS_INPUT ∨ initialData.state = GS_ROUNDOVER) ∧
    (step g0 BUTTON_NEWROUND initialData = (resetInput initialData, none) ∧
     (resetInput initialData).state = GS_INPUT ∧
     (resetInput initialData).inputCount = 0 ∧
     (resetInput initialData).secret = initialData.secret ∧
     (resetInput initialData).tries = initialData.tries) :=
  ⟨Or.inl rfl, newRound_preserves g0 initialData (Or.inl rfl)⟩

/-- A concrete mid-game state: three digits of the guess already typed. -/
def sampleState : GameData :=
  { state := GS_INPUT
    secret := ['1', '2', '3', '4']
    input := ['1', '2', '3', '0']
    hints := ['-', '-', '-', '-']
    inputCount := 3
    tries := 0
    pool := randomDigitPool }

/-- C3: evaluating a completed guess (a digit key in GS_INPUT that fills
the buffer) emits WON iff every hint equals HINT_CORRECT (which is exactly
what `isSecretSolved` decides), otherwise LOST iff the incremented try
count reaches TRIES_MAX, otherwise CONTINUE; WON and LOST end in
GS_GAMEOVER, CONTINUE in GS_ROUNDOVER, and the try count is incremented by
exactly one.  Win takes precedence over loss: the WON condition ignores
the try count entirely. -/
theorem submitGuess_outcome (g : Nat → Nat) (s : GameData) (key : Char)
    (hst : s.state = GS_INPUT) (h0 : '0' ≤ key) (h9 : key ≤ '9')
    (hfull : SECRET_LENGTH ≤ s.inputCount + 1) :
    ((step g key s).2 = some Outcome.win
        ↔ ∀ h ∈ checkInput (s.input.set s.inputCount key) s.secret SECRET_LENGTH,
            h = HINT_CORRECT) ∧
    ((step g key s).2 = some Outcome.lose
        ↔ ((¬ ∀ h ∈ checkInput (s.input.set s.inputCount key) s.secret SECRET_LENGTH,
              h = HINT_CORRECT) ∧ TRIES_MAX ≤ s.tries + 1)) ∧
    ((step g key s).2 = some Outcome.nextTry
        ↔ ((¬ ∀ h ∈ checkInput (s.input.set s.inputCount key) s.secret SECRET_LENGTH,
              h = HINT_CORRECT) ∧ s.tries + 1 < TRIES_MAX)) ∧
    ((step g key s).2 = some Outcome.win ∨ (step g key s).2 = some Outcome.lose
        → (step g key s).1.state = GS_GAMEOVER) ∧
    ((step g key s).2 = some Outcome.nextTry → (step g key s).1.state = GS_ROUNDOVER) ∧
    (step g key s).1.tries = s.tries + 1 := by
  have hsiff :=
    isSecretSolved_iff (checkInput (s.input.set s.inputCount key) s.secret SECRET_LENGTH)
  simp only [step]
  rw [if_pos (⟨hst, h0, h9⟩ : s.state = GS_INPUT ∧ '0' ≤ key ∧ key ≤ '9'), if_pos hfull]
  by_cases hsol :
      isSecretSolved (checkInput (s.input.set s.inputCount key) s.secret SECRET_LENGTH) = true
  · rw [if_pos hsol]
    refine ⟨⟨fun _ => hsiff.mp hsol, fun _ => rfl⟩, ?_, ?_, fun _ => rfl, ?_, rfl⟩
    · constructor
      · intro hef
        exact ((by decide : some Outcome.win ≠ some Outcome.lose) hef).elim
      · rintro ⟨hns, -⟩
        exact absurd (hsiff.mp hsol) hns
    · constructor
      · intro hef
        exact ((by decide : some Outcome.win ≠ some Outcome.nextTry) hef).elim
      · rintro ⟨hns, -⟩
        exact absurd (hsiff.mp hsol) hns
    · intro hef
      exact ((by decide : some Outcome.win ≠ some Outcome.nextTry) hef).elim
  · rw [if_neg hsol]
    have hns : ¬ ∀ h ∈ checkInput (s.input.set s.inputCount key) s.secret SECRET_LENGTH,
        h = HINT_CORRECT :=
      fun hall => hsol (hsiff.mpr hall)
    by_cases htr : TRIES_MAX ≤ s.tries + 1
    · rw [if_pos htr]
      refine ⟨?_, ⟨fun _ => ⟨hns, htr⟩, fun _ => rfl⟩, ?_, fun _ => rfl, ?_, rfl⟩
      · constructor
        · intro hef
          exact ((by decide : some Outcome.lose ≠ some Outcome.win) hef).elim
        · intro hall
          exact absurd hall hns
      · constructor
        · intro hef
          exact ((by decide : some Outcome.lose ≠ some Outcome.nextTry) hef).elim
        · rintro ⟨-, hlt⟩
          exact absurd hlt (by omega)
      · intro hef
        exact ((by decide : some Outcome.lose ≠ some Outcome.nextTry) hef).elim
    · rw [if_neg htr]
      refine ⟨?_, ?_, ⟨fun _ => ⟨hns, by omega⟩, fun _ => rfl⟩, ?_, fun _ => rfl, rfl⟩
      · constructor
        · intro hef
          exact ((by decide : some Outcome.nextTry ≠ some Outcome.win) hef).elim
        · intro hall
          exact absurd hall hns
      · constructor
        · intro hef
          exact ((by decide : some Outcome.nextTry ≠ some Outcome.lose) hef).elim
        · rintro ⟨-, hge⟩
          exact absurd hge htr
      · rintro (hef | hef)
        · exact ((by decide : some Outcome.nextTry ≠ some Outcome.win) hef).elim
        · exact ((by decide : some Outcome.nextTry ≠ some Outcome.lose) hef).elim

/-- Witness for C3: completing the guess `1234` against secret `1234` on
the first try. -/
theorem submitGuess_outcome_witness :
    (sampleState.state = GS_INPUT ∧ '0' ≤ '4' ∧ '4' ≤ '9' ∧
      SECRET_LENGTH ≤ sampleState.inputCount + 1) ∧
    (((step g0 '4' sampleState).2 = some Outcome.win
        ↔ ∀ h ∈ checkInput (sampleState.input.set sampleState.inputCount '4')
            sampleState.secret SECRET_LENGTH, h = HINT_CORRECT) ∧
     ((step g0 '4' sampleState).2 = some Outcome.lose
        ↔ ((¬ ∀ h ∈ checkInput (sampleState.input.set sampleState.inputCount '4')
              sampleState.secret SECRET_LENGTH, h = HINT_CORRECT) ∧
            TRIES_MAX ≤ sampleState.tries + 1)) ∧
     ((step g0 '4' sampleState).2 = some Outcome.nextTry
        ↔ ((¬ ∀ h ∈ checkInput (sampleState.input.set sampleState.inputCount '4')
              sampleState.secret SECRET_LENGTH, h = HINT_CORRECT) ∧
            sampleState.tries + 1 < TRIES_MAX)) ∧
     ((step g0 '4' sampleState).2 = some Outcome.win ∨
        (step g0 '4' sampleState).2 = some Outcome.lose
        → (step g0 '4' sampleState).1.state = GS_GAMEOVER) ∧
     ((step g0 '4' sampleState).2 = some Outcome.nextTry
        → (step g0 '4' sampleState).1.state = GS_ROUNDOVER) ∧
     (step g0 '4' sampleState).1.tries = sampleState.tries + 1) :=
  ⟨⟨rfl, by decide, by decide, by decide⟩,
   submitGuess_outcome g0 sampleState '4' rfl (by decide) (by decide) (by decide)⟩
